import Mathlib

/-!
Verification development for the `forgotten-girl` narrative-game core
(`src/app/orchestrator.py`, `src/app/models.py`, `src/app/config.py`,
`src/app/content.py`).

Modelling conventions:
* Python floats are modelled as exact rationals (`ℚ`); all scores, weights
  and probabilities in the source are small decimal literals.
* Python ints are modelled as `Int` (pydantic `int` fields) or `Nat` where
  the source only ever stores non-negative counters.
* `hashlib.sha256` is an external library primitive, not code of this
  repository; it is modelled as an abstract digest function
  `sha : String → Nat` (the 256-bit digest read as a big-endian natural
  number) passed explicitly to every definition that hashes.  Taking the
  first 16 hex characters of the hex digest, and taking the first 8 bytes
  of the raw digest, both select the top 64 bits, i.e. `sha s / 2 ^ 192`.
* Python dicts used as records become structures with `Option` fields
  (`dict.get(k, default)` becomes `Option.getD`); dicts used as mutable
  maps (`hook_exposures`, `hook_cooldowns`) become association lists.
* In-place mutation of `GameState` becomes explicit state passing: each
  orchestrator entry point returns the updated state next to the values the
  Python function returns.
* `pydantic` validation of required fields (`Resources`, `Caps`) becomes
  `Option`-returning constructors; a `none` result models the
  `ValidationError` raised on a missing key.
* `uuid.uuid4()` results (`session_id`, `trace_id`) are taken as explicit
  parameters.
-/

namespace ForgottenGirl

/-- Game phase tag, mirroring `GamePhase` in `models.py`. -/
inductive GamePhase where
  | RUNNING
  | RUN_END
  | FINAL_END
  | ENDED
deriving DecidableEq

/-- Per-fragment pity/trigger bookkeeping, mirroring `TriggerState`. -/
structure TriggerState where
  exposures : Nat := 0
  p0 : ℚ := 1 / 5
  dp : ℚ := 3 / 20
  p_max : ℚ := 17 / 20
  last_check_day : Option Int := none
  last_check_stage : Option String := none
  cooldown_until_day : Int := 0
deriving DecidableEq

/-- Trigger descriptor, mirroring `Trigger` (the `meta` dict is an
open-ended string map, unused by the core). -/
structure Trigger where
  kind : String
  value : String
  meta : List (String × String) := []
deriving DecidableEq

/-- An acquired story fragment, mirroring `Fragment` (the `reward` and
`meta` dicts are open-ended string maps, unused by the core). -/
structure Fragment where
  fragment_id : String
  version : Int := 1
  day_created : Int
  run_created : Int
  anchor : String
  emotion_tag : String
  salience_score : ℚ
  reveal_level : Int
  trigger : Trigger
  trigger_state : TriggerState
  one_shot : Bool := true
  consumed : Bool := false
  reward : List (String × String) := []
  meta : List (String × String) := []
deriving DecidableEq

/-- An ephemeral per-day fragment proposal, mirroring `FragmentCandidate`.
`trigger_hint` is a string-keyed dict; an empty list models the empty dict
(which is falsy in Python). -/
structure FragmentCandidate where
  anchor : String
  emotion_tag : String
  score : ℚ
  reveal_level : Int
  trigger_hint : List (String × String)
deriving DecidableEq

/-- Per-hook exposure counters and cooldowns, mirroring `ProactiveState`;
the Python dicts become association lists. -/
structure ProactiveState where
  hook_exposures : List (String × Nat) := []
  hook_cooldowns : List (String × Int) := []
deriving DecidableEq

/-- Resource pool, mirroring `Resources` (all four fields are required
pydantic fields with no default). -/
structure Resources where
  ap : Int
  chat_turns : Int
  key_q : Int
  npc_initiative : Int
deriving DecidableEq

/-- Daily caps, mirroring `Caps` (both fields required). -/
structure Caps where
  daily_fragment_cap : Int
  daily_proactive_cap : Int
deriving DecidableEq

/-- Relationship stats, mirroring `Stats`. -/
structure Stats where
  affection : Int := 0
  trust : Int := 0
  stress : Int := 0
  clarity : Int := 0
deriving DecidableEq

/-- Current location/time-slot/event context, mirroring `CurrentContext`. -/
structure CurrentContext where
  event_id : Option String := none
  location : Option String := none
  time_slot : Option String := none
  stage_id : Option String := none
deriving DecidableEq

/-- A narrative message, mirroring `Message`. -/
structure Message where
  role : String
  content : String
  kind : String
  options : List String := []
deriving DecidableEq

/-- One probability-roll audit record.  The Python code appends a dict with
keys `kind`, `fragment_id`/`hook_id`, `probability`, `roll`, `success`,
`exposures`, `stage_id`; the subject-id key name varies with `kind`, here
both are held in `subject_id`. -/
structure TraceEntry where
  kind : String
  subject_id : String
  probability : ℚ
  roll : ℚ
  success : Bool
  exposures : Nat
  stage_id : String
deriving DecidableEq

/-- The session state, mirroring `GameState` (the `meta_progress` and
`history_refs` dicts are open-ended maps never read or written by the
core). -/
structure GameState where
  session_id : String
  state_version : Int := 1
  game_phase : GamePhase := GamePhase.RUNNING
  run_index : Int := 1
  max_runs : Int := 5
  day_index : Int := 1
  run_seed : Nat := 0
  resources : Resources
  caps : Caps
  stats : Stats := {}
  current_context : CurrentContext := {}
  fragments_active : List Fragment := []
  deep_fragments : List Fragment := []
  fragment_candidates_today : List FragmentCandidate := []
  proactive_state : ProactiveState := {}
  pending_npc_messages : List Message := []
  route_flags_local : List String := []
  route_flags_global : List String := []
  meta_progress : List (String × String) := []
  inventory : List (String × Int) := []
  history_refs : List (String × String) := []
  trace_log : List TraceEntry := []
  daily_fragment_count : Nat := 0
  daily_proactive_count : Nat := 0
  event_history : List String := []
deriving DecidableEq

/-- Response envelope, mirroring `ApiResponse`. -/
structure ApiResponse where
  state : GameState
  messages : List Message := []
  ui_hints : List String := []
  trace_id : String
deriving DecidableEq

/-- Result of one pity roll, mirroring the `RollResult` dataclass. -/
structure RollResult where
  success : Bool
  roll : ℚ
  probability : ℚ
deriving DecidableEq

/-- A narrative event record (`content.events` entries are dicts; each
`.get` in the source has the default recorded on the matching `Option`
accessor below). -/
structure Choice where
  options : List String := []
deriving DecidableEq

/-- A fragment hook attached to an event (`event["fragment_hooks"]`
entries). -/
structure EventFragHook where
  anchor : Option String := none
  emotion_tag : Option String := none
  base_score : Option ℚ := none
  reveal_level : Option Int := none
  trigger_hint : List (String × String) := []
deriving DecidableEq

/-- A scripted event dict. -/
structure Event where
  event_id : Option String := none
  location : Option String := none
  time_slot : Option String := none
  base_weight : Option ℚ := none
  intro : Option String := none
  outro : Option String := none
  choice_points : List Choice := []
  fragment_hooks : List EventFragHook := []
deriving DecidableEq

/-- Hook condition dict (`hook["conditions"]`); `none` models an absent
key, and Python truthiness of present values is applied at the use site. -/
structure Conditions where
  location : Option String := none
  time_slot : Option String := none
  min_day : Option Int := none
  max_day : Option Int := none
deriving DecidableEq

/-- Payload template of a proactive hook. -/
structure Payload where
  text : Option String := none
  options : List String := []
deriving DecidableEq

/-- A proactive hook dict. -/
structure Hook where
  hook_id : Option String := none
  conditions : Conditions := {}
  p0 : Option ℚ := none
  dp : Option ℚ := none
  p_max : Option ℚ := none
  cooldown_days : Option Int := none
  base_weight : Option ℚ := none
  kind : Option String := none
  payload_template : Payload := {}
deriving DecidableEq

/-- An ending dict (ordered scenes). -/
structure Ending where
  scenes : List String := []
deriving DecidableEq

/-- The narrative content catalog, mirroring `ContentBundle`. -/
structure ContentBundle where
  events : List Event := []
  hooks : List Hook := []
  endings : List Ending := []
deriving DecidableEq

/-- The configuration bundle, mirroring `ConfigBundle` in `config.py`:
four string-keyed mappings loaded from YAML.  `run`, `resources` and
`caps` hold integers; `pity` maps a purpose name to a mapping of rational
pity parameters. -/
structure ConfigBundle where
  run : List (String × Int) := []
  resources : List (String × Int) := []
  caps : List (String × Int) := []
  pity : List (String × List (String × ℚ)) := []
deriving DecidableEq

/-- Models `d.get(k, dflt)` on an integer-valued dict. -/
def dgetI (d : List (String × Int)) (k : String) (dflt : Int) : Int :=
  match d.find? (fun p => p.1 = k) with
  | some p => p.2
  | none => dflt

/-- Models `d.get(k, dflt)` on a natural-valued dict. -/
def dgetN (d : List (String × Nat)) (k : String) (dflt : Nat) : Nat :=
  match d.find? (fun p => p.1 = k) with
  | some p => p.2
  | none => dflt

/-- Models `d.get(k, dflt)` on a rational-valued dict. -/
def dgetQ (d : List (String × ℚ)) (k : String) (dflt : ℚ) : ℚ :=
  match d.find? (fun p => p.1 = k) with
  | some p => p.2
  | none => dflt

/-- Models `d.get(k, dflt)` on a string-valued dict. -/
def dgetS (d : List (String × String)) (k : String) (dflt : String) : String :=
  match d.find? (fun p => p.1 = k) with
  | some p => p.2
  | none => dflt

/-- Models `d.get(k)` presence-aware lookup on an integer-valued dict. -/
def dfindI (d : List (String × Int)) (k : String) : Option Int :=
  match d.find? (fun p => p.1 = k) with
  | some p => some p.2
  | none => none

/-- Models `d[k] = v` on a natural-valued dict: replace the first binding of `k`,
or append a new one. -/
def dsetN (d : List (String × Nat)) (k : String) (v : Nat) : List (String × Nat) :=
  match d with
  | [] => [(k, v)]
  | p :: rest => if p.1 = k then (k, v) :: rest else p :: dsetN rest k v

/-- Models `d[k] = v` on an integer-valued dict. -/
def dsetI (d : List (String × Int)) (k : String) (v : Int) : List (String × Int) :=
  match d with
  | [] => [(k, v)]
  | p :: rest => if p.1 = k then (k, v) :: rest else p :: dsetI rest k v

/-- Models `config.pity.get(purpose, {})`. -/
def pityDict (pity : List (String × List (String × ℚ))) (purpose : String) :
    List (String × ℚ) :=
  match pity.find? (fun p => p.1 = purpose) with
  | some p => p.2
  | none => []

/-- Models `Resources(**d)`: pydantic requires all four keys; a missing key raises
a `ValidationError`, modelled as `none`. -/
def Resources.ofDict (d : List (String × Int)) : Option Resources :=
  match dfindI d "ap", dfindI d "chat_turns", dfindI d "key_q",
      dfindI d "npc_initiative" with
  | some a, some c, some k, some n => some ⟨a, c, k, n⟩
  | _, _, _, _ => none

/-- Models `Caps(**d)`: both keys required. -/
def Caps.ofDict (d : List (String × Int)) : Option Caps :=
  match dfindI d "daily_fragment_cap", dfindI d "daily_proactive_cap" with
  | some f, some p => some ⟨f, p⟩
  | _, _ => none

/-- Models `stable_seed(*parts)`: joins the stringified parts with `"|"`, hashes
with SHA-256 and keeps the first 16 hex characters, i.e. the top 64 bits of
the digest.  The digest itself is the abstract parameter `sha`. -/
def stable_seed (sha : String → Nat) (parts : List String) : Nat :=
  sha (String.intercalate "|" parts) / 2 ^ 192

/-- Models `roll_with_pity`: escalating probability `min(p_max, p0 + n·dp)` and a
draw taken from the first 8 bytes (top 64 bits) of `sha256(str(seed))`,
scaled into `[0, 1)`; success iff `roll ≤ probability`. -/
def roll_with_pity (sha : String → Nat) (p0 dp p_max : ℚ) (exposures : Nat)
    (seed : Nat) : RollResult :=
  let probability := min p_max (p0 + (exposures : ℚ) * dp)
  let roll : ℚ := ((sha (toString seed) / 2 ^ 192 : ℕ) : ℚ) / 2 ^ 64
  { success := decide (roll ≤ probability), roll := roll,
    probability := probability }

/-- Models `item.get("base_weight", 1.0)` for event dicts. -/
def weightOf (e : Event) : ℚ :=
  e.base_weight.getD 1

/-- Total weight of a candidate list. -/
def sumW (items : List Event) : ℚ :=
  (items.map weightOf).sum

/-- The cumulative-weight loop body of `select_weighted`: starting from the
running total `cum`, return the first item whose cumulative weight meets or
exceeds `threshold`, or `none` if the loop falls through. -/
def selectLoop (threshold : ℚ) : ℚ → List Event → Option Event
  | _, [] => none
  | cum, x :: xs =>
    if cum + weightOf x ≥ threshold then some x
    else selectLoop threshold (cum + weightOf x) xs

/-- Models `select_weighted(items, seed)`: empty list yields no selection; total
weight `≤ 0` yields the first item; otherwise a threshold
`((seed % 10000) / 10000) · total` is drawn and the cumulative loop picks
the first item at or past it, with `items[-1]` as the fall-through. -/
def select_weighted (items : List Event) (seed : Nat) : Option Event :=
  match items with
  | [] => none
  | x :: xs =>
    let total := sumW (x :: xs)
    if total ≤ 0 then some x
    else
      let rng_value : ℚ := ((seed % 10000 : ℕ) : ℚ) / 10000
      let threshold := rng_value * total
      match selectLoop threshold 0 (x :: xs) with
      | some e => some e
      | none => (x :: xs).getLast?

/-- Python `max(l, key)`: the first element attaining the maximal key
(later elements replace the accumulator only on a strictly greater key);
`none` on the empty list (where Python raises). -/
def pyMaxBy {α : Type} (key : α → ℚ) : List α → Option α
  | [] => none
  | x :: xs => some (xs.foldl (fun acc y => if key y > key acc then y else acc) x)

/-- Index-tagged list, used to model Python's mutation of a selected list
element through an object reference. -/
def enumFrom {α : Type} : Nat → List α → List (Nat × α)
  | _, [] => []
  | n, x :: xs => (n, x) :: enumFrom (n + 1) xs

/-- Models `create_initial_state(config)`: builds `Resources(**config.resources)`
and `Caps(**config.caps)` (either raising on missing keys, modelled as
`none`), takes `max_runs` from the run config with default `5`, and derives
the run seed from the session id. -/
def create_initial_state (sha : String → Nat) (session_id : String)
    (config : ConfigBundle) : Option GameState :=
  match Resources.ofDict config.resources, Caps.ofDict config.caps with
  | some r, some c =>
    some { session_id := session_id, resources := r, caps := c,
           max_runs := dgetI config.run "max_runs" 5,
           run_seed := stable_seed sha [session_id, "run_seed"] }
  | _, _ => none

/-- Models `day_start(state, config)`: resets the resource pool from config
(re-validating it), zeroes both daily counters, clears the current context
and announces the day. -/
def day_start (st : GameState) (config : ConfigBundle) :
    Option (GameState × List Message) :=
  match Resources.ofDict config.resources with
  | none => none
  | some r =>
    some ({ st with
            resources := r
            daily_fragment_count := 0
            daily_proactive_count := 0
            current_context := {} },
          [{ role := "system",
             content := "第" ++ toString st.day_index ++ "天开始。",
             kind := "day_start" }])

/-- The eligibility filter of `fragment_trigger_check`, tagged with list
positions: unconsumed, location-triggered at the given location, and off
cooldown. -/
def eligibleIdx (st : GameState) (location : String) : List (Nat × Fragment) :=
  (enumFrom 0 st.fragments_active).filter (fun p =>
    decide (p.2.consumed = false ∧ p.2.trigger.kind = "location" ∧
      p.2.trigger.value = location ∧
      p.2.trigger_state.cooldown_until_day ≤ st.day_index))

/-- Selection key of `fragment_trigger_check`:
`salience_score + exposures * 0.1`. -/
def ftcKey (p : Nat × Fragment) : ℚ :=
  p.2.salience_score + (p.2.trigger_state.exposures : ℚ) * (1 / 10)

/-- The seed `stable_seed(session, run, day, stage, fragment_id)` used for
a fragment roll. -/
def fragSeed (sha : String → Nat) (st : GameState) (stage_id : String)
    (f : Fragment) : Nat :=
  stable_seed sha [st.session_id, toString st.run_index, toString st.day_index,
    stage_id, f.fragment_id]

/-- The roll `fragment_trigger_check` performs on the selected fragment. -/
def fragRoll (sha : String → Nat) (st : GameState) (stage_id : String)
    (f : Fragment) : RollResult :=
  roll_with_pity sha f.trigger_state.p0 f.trigger_state.dp
    f.trigger_state.p_max f.trigger_state.exposures (fragSeed sha st stage_id f)

/-- The `fragment_roll` trace entry appended for the selected fragment
(`exposures` is recorded before any reset/increment). -/
def rollTrace (sha : String → Nat) (st : GameState) (stage_id : String)
    (f : Fragment) : TraceEntry :=
  let result := fragRoll sha st stage_id f
  { kind := "fragment_roll", subject_id := f.fragment_id,
    probability := result.probability, roll := result.roll,
    success := result.success, exposures := f.trigger_state.exposures,
    stage_id := stage_id }

/-- The three graduated micro-flashback lines. -/
def microLines : List String :=
  ["她短暂失神，像是有什么要浮上来又退回去。",
   "她按住太阳穴，似乎听见极远处的回声。",
   "她呼吸一滞，眼神里有更深的空洞。"]

/-- Models `fragment_trigger_check(state, location, stage_id)`: skipped entirely
at the daily cap; otherwise the highest-`ftcKey` eligible fragment is
selected, skipped if already checked at this `(day, stage)`, and otherwise
rolled: on success the fragment's exposures reset, it is consumed if
one-shot and the daily counter increments; on failure its exposures
increment and a graduated micro-flashback line is emitted.  Either way the
fragment's last-check marks are updated and one trace entry is appended. -/
def fragment_trigger_check (sha : String → Nat) (st : GameState)
    (location stage_id : String) : GameState × Option Message :=
  if (st.daily_fragment_count : Int) ≥ st.caps.daily_fragment_cap then (st, none)
  else
    match pyMaxBy ftcKey (eligibleIdx st location) with
    | none => (st, none)
    | some (i, frag) =>
      if frag.trigger_state.last_check_day = some st.day_index ∧
          frag.trigger_state.last_check_stage = some stage_id then
        (st, none)
      else
        let result := fragRoll sha st stage_id frag
        let entry := rollTrace sha st stage_id frag
        if result.success then
          let frag' := { frag with
            trigger_state := { frag.trigger_state with
              exposures := 0
              last_check_day := some st.day_index
              last_check_stage := some stage_id }
            consumed := frag.one_shot }
          ({ st with
             fragments_active := st.fragments_active.set i frag'
             trace_log := st.trace_log ++ [entry]
             daily_fragment_count := st.daily_fragment_count + 1 },
           some { role := "narrator"
                  content := "她触碰到" ++ frag.anchor ++ "时，脑海里闪过模糊的画面。"
                  kind := "fragment_event" })
        else
          let expo := frag.trigger_state.exposures + 1
          let frag' := { frag with
            trigger_state := { frag.trigger_state with
              exposures := expo
              last_check_day := some st.day_index
              last_check_stage := some stage_id } }
          let intensity := min expo 3
          ({ st with
             fragments_active := st.fragments_active.set i frag'
             trace_log := st.trace_log ++ [entry] },
           some { role := "narrator"
                  content := microLines.getD (intensity - 1) ""
                  kind := "micro_flashback" })

/-- Models `hook_matches_conditions(hook, state)` with Python truthiness: a
condition value that is `None`, the empty string, or `0` imposes no
constraint. -/
def hook_matches_conditions (hook : Hook) (st : GameState) : Bool :=
  (match hook.conditions.location with
   | none => true
   | some l => decide (l = "") || decide (st.current_context.location = some l)) &&
  (match hook.conditions.time_slot with
   | none => true
   | some t => decide (t = "") || decide (st.current_context.time_slot = some t)) &&
  (match hook.conditions.min_day with
   | none => true
   | some d => decide (d = 0) || decide (st.day_index ≥ d)) &&
  (match hook.conditions.max_day with
   | none => true
   | some d => decide (d = 0) || decide (st.day_index ≤ d))

/-- The eligibility filter of `proactive_check`: condition match and
per-hook cooldown expiry (hook id defaulting to `""` here, as in the
source's cooldown lookup). -/
def eligibleHooks (st : GameState) (content : ContentBundle) : List Hook :=
  content.hooks.filter (fun h =>
    hook_matches_conditions h st &&
      decide (dgetI st.proactive_state.hook_cooldowns (h.hook_id.getD "") 0 ≤
        st.day_index))

/-- Cumulative-weight loop of `select_hook`. -/
def hookLoop (threshold : ℚ) : ℚ → List (Hook × ℚ) → Option Hook
  | _, [] => none
  | cum, x :: xs =>
    if cum + x.2 ≥ threshold then some x.1
    else hookLoop threshold (cum + x.2) xs

/-- Models `select_hook(eligible, state, stage_id)`: weight
`base_weight + exposure * 0.2` floored at `0.1`, seeded threshold over the
cumulative weights, `weighted[-1]` as fall-through, `none` when the total
is not positive. -/
def select_hook (sha : String → Nat) (eligible : List Hook) (st : GameState)
    (stage_id : String) : Option Hook :=
  let weighted := eligible.map (fun h =>
    let expo := dgetN st.proactive_state.hook_exposures (h.hook_id.getD "") 0
    (h, max (h.base_weight.getD 1 + (expo : ℚ) * (1 / 5)) (1 / 10)))
  let total := (weighted.map (fun p => p.2)).sum
  if total ≤ 0 then none
  else
    let seed := stable_seed sha [st.session_id, toString st.run_index,
      toString st.day_index, stage_id, "hook_select"]
    let rng_value : ℚ := ((seed % 10000 : ℕ) : ℚ) / 10000
    let threshold := rng_value * total
    match hookLoop threshold 0 weighted with
    | some h => some h
    | none => (weighted.getLast?).map (fun p => p.1)

/-- The seed `stable_seed(session, run, day, stage, hook_id)` used for a
proactive roll. -/
def hookSeed (sha : String → Nat) (st : GameState) (stage_id hook_id : String) :
    Nat :=
  stable_seed sha [st.session_id, toString st.run_index, toString st.day_index,
    stage_id, hook_id]

/-- The roll `proactive_check` performs on the selected hook. -/
def hookRoll (sha : String → Nat) (st : GameState) (stage_id : String)
    (hook : Hook) : RollResult :=
  let hook_id := hook.hook_id.getD "hook"
  roll_with_pity sha (hook.p0.getD (1 / 5)) (hook.dp.getD (1 / 10))
    (hook.p_max.getD (7 / 10))
    (dgetN st.proactive_state.hook_exposures hook_id 0)
    (hookSeed sha st stage_id hook_id)

/-- The `proactive_roll` trace entry for the selected hook. -/
def hookTrace (sha : String → Nat) (st : GameState) (stage_id : String)
    (hook : Hook) : TraceEntry :=
  let hook_id := hook.hook_id.getD "hook"
  let result := hookRoll sha st stage_id hook
  { kind := "proactive_roll", subject_id := hook_id,
    probability := result.probability, roll := result.roll,
    success := result.success,
    exposures := dgetN st.proactive_state.hook_exposures hook_id 0,
    stage_id := stage_id }

/-- The NPC message queued by a successful proactive roll. -/
def hookMessage (hook : Hook) : Message :=
  { role := "npc",
    content := hook.payload_template.text.getD "她似乎想主动说点什么。",
    kind := "proactive_" ++ hook.kind.getD "soft",
    options := hook.payload_template.options }

/-- Models `proactive_check(state, content, stage_id)`: skipped at the daily cap
or with no initiative resource; filters and weighted-selects a hook, rolls
pity with the hook's exposure counter, and on success resets exposure, sets
the cooldown, consumes the initiative resource and daily counter, and
queues the NPC message on the state; on failure only the exposure counter
increments.  The returned message list is always empty — queued messages
are flushed by `build_response`. -/
def proactive_check (sha : String → Nat) (st : GameState)
    (content : ContentBundle) (stage_id : String) : GameState × List Message :=
  if (st.daily_proactive_count : Int) ≥ st.caps.daily_proactive_cap then (st, [])
  else if st.resources.npc_initiative ≤ 0 then (st, [])
  else
    let eligible := eligibleHooks st content
    if eligible.isEmpty then (st, [])
    else
      match select_hook sha eligible st stage_id with
      | none => (st, [])
      | some hook =>
        let hook_id := hook.hook_id.getD "hook"
        let exposures := dgetN st.proactive_state.hook_exposures hook_id 0
        let result := hookRoll sha st stage_id hook
        let st1 := { st with trace_log := st.trace_log ++ [hookTrace sha st stage_id hook] }
        if result.success = false then
          ({ st1 with proactive_state := { st1.proactive_state with
              hook_exposures := dsetN st1.proactive_state.hook_exposures hook_id
                (exposures + 1) } }, [])
        else
          ({ st1 with
             proactive_state :=
               { hook_exposures := dsetN st1.proactive_state.hook_exposures hook_id 0,
                 hook_cooldowns := dsetI st1.proactive_state.hook_cooldowns hook_id
                   (st.day_index + hook.cooldown_days.getD 1) },
             resources := { st1.resources with
               npc_initiative := st1.resources.npc_initiative - 1 },
             daily_proactive_count := st1.daily_proactive_count + 1,
             pending_npc_messages := st1.pending_npc_messages ++ [hookMessage hook] },
           [])

/-- Models `select_event(content, location, time_slot, state)`: exact
location/time-slot filter, halving of the most recent event's weight
(Python truthiness: only a non-empty last id counts), then weighted
selection under the (session, run, day, location, time-slot) seed. -/
def select_event (sha : String → Nat) (content : ContentBundle)
    (location time_slot : String) (st : GameState) : Option Event :=
  let candidates := content.events.filter (fun e =>
    decide (e.location = some location ∧ e.time_slot = some time_slot))
  let weighted := candidates.map (fun e =>
    let w := weightOf e
    let w :=
      match st.event_history.getLast? with
      | some lid => if lid ≠ "" ∧ e.event_id = some lid then w * (1 / 2) else w
      | none => w
    { e with base_weight := some w })
  let seed := stable_seed sha [st.session_id, toString st.run_index,
    toString st.day_index, location, time_slot]
  select_weighted weighted seed

/-- Conversion of an event's fragment hook into a candidate, with the
source's `.get` defaults. -/
def hookToCandidate (h : EventFragHook) : FragmentCandidate :=
  { anchor := h.anchor.getD "", emotion_tag := h.emotion_tag.getD "neutral",
    score := h.base_score.getD (1 / 5), reveal_level := h.reveal_level.getD 1,
    trigger_hint := h.trigger_hint }

/-- Models `action_select(state, content, location, time_slot, stage_id)`: warns
and returns unchanged when `ap ≤ 0`; otherwise consumes one `ap`, sets the
context, runs the fragment check, selects and narrates an event (recording
its id, collecting choice options as UI hints, and harvesting its fragment
hooks as candidates only when no fragment message fired), and finally runs
the proactive check. -/
def action_select (sha : String → Nat) (st : GameState)
    (content : ContentBundle) (location time_slot stage_id : String) :
    GameState × List Message × List String :=
  if st.resources.ap ≤ 0 then
    (st, [{ role := "system", content := "体力不足，无法行动。", kind := "warning" }], [])
  else
    let st := { st with
      resources := { st.resources with ap := st.resources.ap - 1 }
      current_context := { location := some location
                           time_slot := some time_slot
                           stage_id := some stage_id } }
    let fr := fragment_trigger_check sha st location stage_id
    let st := fr.1
    let msgs0 := match fr.2 with
      | some m => [m]
      | none => []
    match select_event sha content location time_slot st with
    | some ev =>
      let st := { st with current_context := { st.current_context with
        event_id := ev.event_id } }
      let st := match ev.event_id with
        | some eid =>
          if eid = "" then st
          else { st with event_history := st.event_history ++ [eid] }
        | none => st
      let introMsg : Message :=
        { role := "narrator", content := ev.intro.getD "", kind := "event_intro" }
      let hints := (ev.choice_points.map (fun c => c.options)).flatten
      let st :=
        if fr.2 = none then
          { st with fragment_candidates_today := st.fragment_candidates_today ++
              ev.fragment_hooks.map hookToCandidate }
        else st
      let outroMsg : Message :=
        { role := "narrator", content := ev.outro.getD "", kind := "event_outro" }
      let pr := proactive_check sha st content stage_id
      (pr.1, msgs0 ++ [introMsg, outroMsg] ++ pr.2, hints)
    | none =>
      let fallbackMsg : Message :=
        { role := "narrator", content := "这里没有发生特别的事。", kind := "event_fallback" }
      let pr := proactive_check sha st content stage_id
      (pr.1, msgs0 ++ [fallbackMsg] ++ pr.2, [])

/-- Models `chat(state, text, content, stage_id)`: warns and returns unchanged
when no chat turns remain; otherwise consumes one turn, records a fixed
conversation candidate anchored at the current location, emits the NPC
listening line, and runs the proactive check. -/
def chat (sha : String → Nat) (st : GameState) (text : String)
    (content : ContentBundle) (stage_id : String) : GameState × List Message :=
  if st.resources.chat_turns ≤ 0 then
    (st, [{ role := "system", content := "今天聊得够多了。", kind := "warning" }])
  else
    let st := { st with
      resources := { st.resources with chat_turns := st.resources.chat_turns - 1 },
      fragment_candidates_today := st.fragment_candidates_today ++
        [{ anchor := "对话", emotion_tag := "curious", score := 3 / 10,
           reveal_level := 1,
           trigger_hint := [("kind", "location"),
             ("value", st.current_context.location.getD "")] }] }
    let pr := proactive_check sha st content stage_id
    (pr.1, [{ role := "npc", content := "她认真听着，像在拼凑新的线索。", kind := "chat" }] ++ pr.2)

/-- Models `pick_fragment(state, config)`: promotes the best-scoring candidate of
the day (first maximal, Python `max`) into a `Fragment`, falling back to a
location hint at the current location when the candidate's hint dict is
empty (falsy), with pity parameters from `config.pity["fragment"]`. -/
def pick_fragment (st : GameState) (config : ConfigBundle) : Option Fragment :=
  match pyMaxBy (fun c => c.score) st.fragment_candidates_today with
  | none => none
  | some best =>
    let hint :=
      if best.trigger_hint = [] then
        [("kind", "location"), ("value", st.current_context.location.getD "")]
      else best.trigger_hint
    let pity_defaults := pityDict config.pity "fragment"
    some
      { fragment_id := "fragment_" ++ toString st.run_index ++ "_" ++
          toString st.day_index ++ "_" ++
          toString (st.fragments_active.length + 1)
        day_created := st.day_index
        run_created := st.run_index
        anchor := best.anchor
        emotion_tag := best.emotion_tag
        salience_score := best.score
        reveal_level := best.reveal_level
        trigger := { kind := dgetS hint "kind" "location"
                     value := dgetS hint "value" "" }
        trigger_state := { exposures := 0
                           p0 := dgetQ pity_defaults "p0" (1 / 5)
                           dp := dgetQ pity_defaults "dp" (3 / 20)
                           p_max := dgetQ pity_defaults "p_max" (17 / 20) } }

/-- Models `final_ending(state, content)`: one narrator message per scene of the
first ending, with a one-scene fallback ending when the catalog is
empty. -/
def final_ending (st : GameState) (content : ContentBundle) : List Message :=
  let ending := match content.endings with
    | e :: _ => e
    | [] => { scenes := ["故事落幕。"] }
  ending.scenes.map (fun scene =>
    { role := "narrator", content := scene, kind := "final_ending" })

/-- Models `run_end(state, config, content)`: announces the run's end, replaces
`deep_fragments` with the single highest-salience active fragment (when any
are active), clears the active list, and either finishes the session
(`FINAL_END`, ending scenes, `ENDED`) or restarts the next run with reset
counters, a fresh run seed and a cleared event history. -/
def run_end (sha : String → Nat) (st : GameState) (config : ConfigBundle)
    (content : ContentBundle) : GameState × List Message :=
  let msgs : List Message :=
    [{ role := "system", content := "第" ++ toString st.run_index ++ "轮结束。",
       kind := "run_end" }]
  let st1 := match pyMaxBy (fun f => f.salience_score) st.fragments_active with
    | some deep => { st with deep_fragments := [deep] }
    | none => st
  let st2 := { st1 with fragments_active := [] }
  if st2.run_index ≥ st2.max_runs then
    let st3 := { st2 with game_phase := GamePhase.FINAL_END }
    let finalMsgs := final_ending st3 content
    ({ st3 with game_phase := GamePhase.ENDED }, msgs ++ finalMsgs)
  else
    ({ st2 with
       run_index := st2.run_index + 1
       day_index := 1
       game_phase := GamePhase.RUNNING
       run_seed := stable_seed sha [st2.session_id, "run_seed",
         toString (st2.run_index + 1)]
       event_history := [] }, msgs)

/-- The state `day_end` has built just before it tests the run boundary:
the day's best candidate is promoted into an active fragment, candidates
and context are cleared, and the day index advances. -/
def dayEndPre (st : GameState) (config : ConfigBundle) : GameState :=
  let st1 := match pick_fragment st config with
    | some frag => { st with fragments_active := st.fragments_active ++ [frag] }
    | none => st
  { st1 with
    fragment_candidates_today := []
    current_context := {}
    day_index := st1.day_index + 1 }

/-- Models `day_end(state, config, content)`: promotes the day's best candidate
into an active fragment, clears candidates and context, advances the day,
and enters `RUN_END` handling once the day index exceeds
`days_per_run` (default 7). -/
def day_end (sha : String → Nat) (st : GameState) (config : ConfigBundle)
    (content : ContentBundle) : GameState × List Message :=
  let msgs1 : List Message := match pick_fragment st config with
    | some _ => [{ role := "system"
                   content := "有新的记忆碎片留下。"
                   kind := "fragment_gain" }]
    | none => []
  let st2 := dayEndPre st config
  if st2.day_index > dgetI config.run "days_per_run" 7 then
    let st3 := { st2 with game_phase := GamePhase.RUN_END }
    let re := run_end sha st3 config content
    (re.1, msgs1 ++ re.2)
  else
    (st2, msgs1)

/-- Models `build_response(state, messages, ui_hints)`: flushes queued NPC
messages into the response and clears the queue; the `trace_id`
(`uuid4()` in the source) is an explicit parameter. -/
def build_response (st : GameState) (messages : List Message)
    (ui_hints : List String) (trace_id : String) : ApiResponse :=
  { state := { st with pending_npc_messages := [] },
    messages := messages ++ st.pending_npc_messages,
    ui_hints := ui_hints, trace_id := trace_id }

/-- One boundary-layer call into the core (the four mutating entry
points), with its call-specific parameters. -/
inductive Op where
  | dayStart (config : ConfigBundle)
  | actionSelect (content : ContentBundle) (location time_slot stage_id : String)
  | chatOp (text : String) (content : ContentBundle) (stage_id : String)
  | dayEnd (config : ConfigBundle) (content : ContentBundle)

/-- Applies one call to the state, `none` modelling a raised
`ValidationError`. -/
def applyOp (sha : String → Nat) (op : Op) (st : GameState) : Option GameState :=
  match op with
  | Op.dayStart config =>
    match day_start st config with
    | some r => some r.1
    | none => none
  | Op.actionSelect content location time_slot stage_id =>
    some (action_select sha st content location time_slot stage_id).1
  | Op.chatOp text content stage_id => some (chat sha st text content stage_id).1
  | Op.dayEnd config content => some (day_end sha st config content).1

/-- Sequential application of a call sequence. -/
def runOps (sha : String → Nat) : List Op → GameState → Option GameState
  | [], st => some st
  | op :: ops, st =>
    match applyOp sha op st with
    | some st' => runOps sha ops st'
    | none => none

/-- A concrete stand-in digest used to evaluate the model on closed
inputs. -/
def sha0 : String → Nat := fun _ => 0

/-- The `fragment_gain` message prefix `day_end` may emit before the
run-end messages. -/
def fragPre (st : GameState) (config : ConfigBundle) : List Message :=
  match pick_fragment st config with
  | some _ => [{ role := "system"
                 content := "有新的记忆碎片留下。"
                 kind := "fragment_gain" }]
  | none => []

/-- The run-end announcement message. -/
def runEndMsg (i : Int) : Message :=
  { role := "system", content := "第" ++ toString i ++ "轮结束。",
    kind := "run_end" }

/-- The scene list of the first available ending (with the fallback scene
used when the catalog is empty). -/
def endingScenes (content : ContentBundle) : List String :=
  match content.endings with
  | e :: _ => e.scenes
  | [] => ["故事落幕。"]

/-- Demo event with weight 1 (for concrete evaluation). -/
def wEvent1 : Event := { base_weight := some 1 }

/-- Demo event with weight 2 (for concrete evaluation). -/
def wEvent2 : Event := { base_weight := some 2 }

/-- Demo candidate list for the weighted selector. -/
def demoEvents : List Event := [wEvent1, wEvent2]

/-- A concrete configuration with full resource/cap mappings, a
`days_per_run` entry and no `max_runs` entry. -/
def cfgMain : ConfigBundle :=
  { run := [("days_per_run", 7)]
    resources := [("ap", 3), ("chat_turns", 2), ("key_q", 0),
      ("npc_initiative", 1)]
    caps := [("daily_fragment_cap", 1), ("daily_proactive_cap", 1)]
    pity := [] }

/-- A concrete configuration with one-day runs and two runs per session. -/
def cfgShort : ConfigBundle :=
  { run := [("days_per_run", 1), ("max_runs", 2)]
    resources := [("ap", 3), ("chat_turns", 2), ("key_q", 0),
      ("npc_initiative", 1)]
    caps := [("daily_fragment_cap", 2), ("daily_proactive_cap", 1)]
    pity := [] }

/-- A concrete configuration with seven-day runs and a single run. -/
def cfgOne : ConfigBundle :=
  { run := [("days_per_run", 7), ("max_runs", 1)]
    resources := [("ap", 3), ("chat_turns", 2), ("key_q", 0),
      ("npc_initiative", 1)]
    caps := [("daily_fragment_cap", 1), ("daily_proactive_cap", 1)]
    pity := [] }

/-- A content bundle holding only one two-scene ending. -/
def endContent : ContentBundle :=
  { endings := [{ scenes := ["她想起了一切。", "清晨的光落在空房间里。"] }] }

/-- A content bundle holding only one unconditional proactive hook. -/
def hookContent : ContentBundle :=
  { hooks := [{ hook_id := some "h1" }] }

/-- A consumed one-shot fragment (for concrete evaluation). -/
def fragConsumed : Fragment :=
  { fragment_id := "fragment_1_1_1", day_created := 1, run_created := 1,
    anchor := "照片", emotion_tag := "sad", salience_score := 1 / 2,
    reveal_level := 1, trigger := { kind := "location", value := "市场" },
    trigger_state := {}, consumed := true }

/-- An eligible fragment already checked at day 1, stage `event_flow`,
with high salience. -/
def fragChecked : Fragment :=
  { fragment_id := "fragment_1_1_2", day_created := 1, run_created := 1,
    anchor := "钥匙", emotion_tag := "curious", salience_score := 1 / 2,
    reveal_level := 1, trigger := { kind := "location", value := "市场" },
    trigger_state := { last_check_day := some 1
                       last_check_stage := some "event_flow" } }

/-- An eligible fragment not yet checked, with lower salience. -/
def fragFresh : Fragment :=
  { fragment_id := "fragment_1_1_3", day_created := 1, run_created := 1,
    anchor := "围巾", emotion_tag := "warm", salience_score := 1 / 5,
    reveal_level := 1, trigger := { kind := "location", value := "市场" },
    trigger_state := {} }

/-- A concrete state holding a consumed fragment next to two eligible
ones, used to evaluate the fragment trigger engine. -/
def stFrag : GameState :=
  { session_id := "sid", resources := ⟨3, 2, 0, 1⟩, caps := ⟨2, 1⟩,
    fragments_active := [fragConsumed, fragChecked, fragFresh] }

/-- The daily-cap invariant: both daily counters stay within their caps. -/
def capsInv (s : GameState) : Prop :=
  (s.daily_fragment_count : Int) ≤ s.caps.daily_fragment_cap ∧
  (s.daily_proactive_count : Int) ≤ s.caps.daily_proactive_cap

/-- A concrete call sequence exercising all four mutating entry points. -/
def demoOps : List Op :=
  [Op.dayStart cfgMain,
   Op.actionSelect {} "街角" "早" "event_flow",
   Op.chatOp "你好" {} "chat",
   Op.dayEnd cfgMain {}]

/-- A trivial state used only as an `Option.getD` fallback on computations
known to succeed. -/
def blankState : GameState :=
  { session_id := "", resources := ⟨0, 0, 0, 0⟩, caps := ⟨0, 0⟩ }

/-- Six `day_end` calls on the one-run seven-day configuration. -/
def opsC : List Op := List.replicate 6 (Op.dayEnd cfgOne endContent)

/-- The state reached after six `day_end` calls from a fresh session on
`cfgOne` (day 7 of the single run). -/
def stC6 : GameState :=
  ((create_initial_state sha0 "sidC" cfgOne).bind (runOps sha0 opsC)).getD
    blankState

/-- The single unconditional hook of `hookContent`. -/
def hk1 : Hook := { hook_id := some "h1" }

section Lemmas

/-- Python `max` folds left, keeping the accumulator on ties, so its result
is the accumulator or one of the folded elements. -/
lemma foldl_choice_mem {α : Type} (key : α → ℚ) :
    ∀ (xs : List α) (acc : α),
      xs.foldl (fun a y => if key y > key a then y else a) acc ∈ acc :: xs := by
  intro xs
  induction xs with
  | nil => intro acc; simp
  | cons y ys ih =>
    intro acc
    have h := ih (if key y > key acc then y else acc)
    simp only [List.foldl_cons]
    by_cases hk : key y > key acc
    · rw [if_pos hk] at h ⊢
      exact List.mem_cons_of_mem acc h
    · rw [if_neg hk] at h ⊢
      rcases List.mem_cons.mp h with h1 | h1
      · rw [h1]; exact List.mem_cons_self _ _
      · exact List.mem_cons_of_mem acc (List.mem_cons_of_mem y h1)

/-- The fold underlying Python `max` dominates its accumulator and every
folded element. -/
lemma foldl_choice_le {α : Type} (key : α → ℚ) :
    ∀ (xs : List α) (acc : α),
      key acc ≤ key (xs.foldl (fun a y => if key y > key a then y else a) acc) ∧
      ∀ x ∈ xs, key x ≤
        key (xs.foldl (fun a y => if key y > key a then y else a) acc) := by
  intro xs
  induction xs with
  | nil => intro acc; simp
  | cons y ys ih =>
    intro acc
    obtain ⟨h1, h2⟩ := ih (if key y > key acc then y else acc)
    have hacc : key acc ≤ key (if key y > key acc then y else acc) := by
      by_cases hk : key y > key acc
      · simp only [hk, if_pos]; exact le_of_lt hk
      · simp [hk]
    have hy : key y ≤ key (if key y > key acc then y else acc) := by
      by_cases hk : key y > key acc
      · simp [hk]
      · simp only [hk, if_neg, not_false_iff]
        exact le_of_not_lt hk
    constructor
    · exact le_trans hacc h1
    · intro x hx
      rcases List.mem_cons.mp hx with rfl | hx
      · exact le_trans hy h1
      · exact h2 x hx

/-- Models `pyMaxBy` returns an element of its list. -/
lemma pyMaxBy_mem {α : Type} (key : α → ℚ) (l : List α) (a : α)
    (h : pyMaxBy key l = some a) : a ∈ l := by
  cases l with
  | nil => simp [pyMaxBy] at h
  | cons x xs =>
    simp only [pyMaxBy, Option.some.injEq] at h
    have := foldl_choice_mem key xs x
    rw [h] at this
    exact this

/-- Models `pyMaxBy` returns a maximiser of the key. -/
lemma pyMaxBy_le {α : Type} (key : α → ℚ) (l : List α) (a : α)
    (h : pyMaxBy key l = some a) : ∀ x ∈ l, key x ≤ key a := by
  cases l with
  | nil => simp [pyMaxBy] at h
  | cons x xs =>
    simp only [pyMaxBy, Option.some.injEq] at h
    obtain ⟨h1, h2⟩ := foldl_choice_le key xs x
    intro z hz
    rcases List.mem_cons.mp hz with rfl | hz
    · rw [← h]; exact h1
    · rw [← h]; exact h2 z hz

/-- Membership in `enumFrom` recovers the list entry at the tagged
position. -/
lemma enumFrom_mem_get? {α : Type} :
    ∀ (l : List α) (n j : Nat) (a : α), (j, a) ∈ enumFrom n l →
      n ≤ j ∧ l.get? (j - n) = some a := by
  intro l
  induction l with
  | nil => intro n j a h; simp [enumFrom] at h
  | cons x xs ih =>
    intro n j a h
    simp only [enumFrom, List.mem_cons, Prod.mk.injEq] at h
    rcases h with ⟨rfl, rfl⟩ | h
    · simp
    · obtain ⟨h1, h2⟩ := ih (n + 1) j a h
      refine ⟨by omega, ?_⟩
      have hj : j - n = (j - (n + 1)) + 1 := by omega
      rw [hj]
      simpa using h2

/-- Models `List.set` at one position leaves every other position unchanged. -/
lemma get?_set_of_ne {α : Type} :
    ∀ (l : List α) (i j : Nat) (a : α), i ≠ j →
      (l.set j a).get? i = l.get? i := by
  intro l
  induction l with
  | nil => intro i j a _; simp
  | cons x xs ih =>
    intro i j a hij
    cases j with
    | zero =>
      cases i with
      | zero => exact absurd rfl hij
      | succ i => simp
    | succ j =>
      cases i with
      | zero => simp
      | succ i => simpa using ih i j a (by omega)

/-- A membership fact for the fragment eligibility filter: the tagged index
points at the fragment in the active list, and the fragment is not
consumed. -/
lemma eligibleIdx_mem (st : GameState) (location : String) (j : Nat)
    (g : Fragment) (h : (j, g) ∈ eligibleIdx st location) :
    st.fragments_active.get? j = some g ∧ g.consumed = false := by
  obtain ⟨hmem, hp⟩ := List.mem_filter.mp h
  have hc := of_decide_eq_true hp
  obtain ⟨_, h2⟩ := enumFrom_mem_get? st.fragments_active 0 j g hmem
  exact ⟨by simpa using h2, hc.1⟩

/-- Models `fragment_trigger_check` keeps the caps and the proactive counter, and
increments the fragment counter only from strictly below its cap. -/
lemma ftc_counts (sha : String → Nat) (st : GameState)
    (location stage_id : String) :
    (fragment_trigger_check sha st location stage_id).1.caps = st.caps ∧
    (fragment_trigger_check sha st location stage_id).1.daily_proactive_count
      = st.daily_proactive_count ∧
    ((fragment_trigger_check sha st location stage_id).1.daily_fragment_count
        = st.daily_fragment_count ∨
      ((st.daily_fragment_count : Int) < st.caps.daily_fragment_cap ∧
        (fragment_trigger_check sha st location stage_id).1.daily_fragment_count
          = st.daily_fragment_count + 1)) := by
  simp only [fragment_trigger_check]
  split
  · exact ⟨rfl, rfl, Or.inl rfl⟩
  · rename_i hg
    split
    · exact ⟨rfl, rfl, Or.inl rfl⟩
    · split
      · exact ⟨rfl, rfl, Or.inl rfl⟩
      · split
        · exact ⟨rfl, rfl, Or.inr ⟨lt_of_not_ge hg, rfl⟩⟩
        · exact ⟨rfl, rfl, Or.inl rfl⟩

/-- Models `proactive_check` keeps the caps and the fragment counter, and
increments the proactive counter only from strictly below its cap. -/
lemma pc_counts (sha : String → Nat) (st : GameState)
    (content : ContentBundle) (stage_id : String) :
    (proactive_check sha st content stage_id).1.caps = st.caps ∧
    (proactive_check sha st content stage_id).1.daily_fragment_count
      = st.daily_fragment_count ∧
    ((proactive_check sha st content stage_id).1.daily_proactive_count
        = st.daily_proactive_count ∨
      ((st.daily_proactive_count : Int) < st.caps.daily_proactive_cap ∧
        (proactive_check sha st content stage_id).1.daily_proactive_count
          = st.daily_proactive_count + 1)) := by
  simp only [proactive_check]
  split
  · exact ⟨rfl, rfl, Or.inl rfl⟩
  · rename_i hg
    split
    · exact ⟨rfl, rfl, Or.inl rfl⟩
    · split
      · exact ⟨rfl, rfl, Or.inl rfl⟩
      · split
        · exact ⟨rfl, rfl, Or.inl rfl⟩
        · split
          · exact ⟨rfl, rfl, Or.inl rfl⟩
          · exact ⟨rfl, rfl, Or.inr ⟨lt_of_not_ge hg, rfl⟩⟩

/-- The fragment check preserves the daily-cap invariant. -/
lemma ftc_inv {sha : String → Nat} {st : GameState}
    {location stage_id : String} (h : capsInv st) :
    capsInv (fragment_trigger_check sha st location stage_id).1 := by
  obtain ⟨hc, hp, hf⟩ := ftc_counts sha st location stage_id
  constructor
  · rw [hc]
    rcases hf with hf | ⟨hlt, hf⟩
    · rw [hf]; exact h.1
    · rw [hf]; push_cast; omega
  · rw [hc, hp]; exact h.2

/-- The proactive check preserves the daily-cap invariant. -/
lemma pc_inv {sha : String → Nat} {st : GameState} {content : ContentBundle}
    {stage_id : String} (h : capsInv st) :
    capsInv (proactive_check sha st content stage_id).1 := by
  obtain ⟨hc, hf, hp⟩ := pc_counts sha st content stage_id
  constructor
  · rw [hc, hf]; exact h.1
  · rw [hc]
    rcases hp with hp | ⟨hlt, hp⟩
    · rw [hp]; exact h.2
    · rw [hp]; push_cast; omega

/-- Models `action_select` preserves the daily-cap invariant. -/
lemma action_select_inv {sha : String → Nat} {st : GameState}
    {content : ContentBundle} {location time_slot stage_id : String}
    (h : capsInv st) :
    capsInv (action_select sha st content location time_slot stage_id).1 := by
  simp only [action_select]
  split
  · exact h
  · repeat' split
    all_goals exact pc_inv (ftc_inv h)

/-- Models `chat` preserves the daily-cap invariant. -/
lemma chat_inv {sha : String → Nat} {st : GameState} {text : String}
    {content : ContentBundle} {stage_id : String} (h : capsInv st) :
    capsInv (chat sha st text content stage_id).1 := by
  simp only [chat]
  split
  · exact h
  · exact pc_inv h

/-- Models `run_end` keeps the caps and both daily counters. -/
lemma run_end_counts (sha : String → Nat) (st : GameState)
    (config : ConfigBundle) (content : ContentBundle) :
    (run_end sha st config content).1.caps = st.caps ∧
    (run_end sha st config content).1.daily_fragment_count
      = st.daily_fragment_count ∧
    (run_end sha st config content).1.daily_proactive_count
      = st.daily_proactive_count := by
  simp only [run_end]
  split <;> split <;> exact ⟨rfl, rfl, rfl⟩

/-- Models `day_end` keeps the caps and both daily counters. -/
lemma day_end_counts {sha : String → Nat} {st : GameState}
    {config : ConfigBundle} {content : ContentBundle} :
    (day_end sha st config content).1.caps = st.caps ∧
    (day_end sha st config content).1.daily_fragment_count
      = st.daily_fragment_count ∧
    (day_end sha st config content).1.daily_proactive_count
      = st.daily_proactive_count := by
  simp only [day_end, dayEndPre, run_end]
  repeat' split
  all_goals exact ⟨rfl, rfl, rfl⟩

/-- Models `day_end` preserves the daily-cap invariant. -/
lemma day_end_inv {sha : String → Nat} {st : GameState}
    {config : ConfigBundle} {content : ContentBundle} (h : capsInv st) :
    capsInv (day_end sha st config content).1 := by
  obtain ⟨hc, hf, hp⟩ := @day_end_counts sha st config content
  exact ⟨by rw [hc, hf]; exact h.1, by rw [hc, hp]; exact h.2⟩

/-- A successful `day_start` resets both counters, so it preserves the
daily-cap invariant (the caps are non-negative whenever the invariant held
before, because the counters are naturals). -/
lemma day_start_inv {st st2 : GameState} {config : ConfigBundle}
    {msgs : List Message} (h : capsInv st)
    (hd : day_start st config = some (st2, msgs)) : capsInv st2 := by
  simp only [day_start] at hd
  rcases hr : Resources.ofDict config.resources with _ | r
  · rw [hr] at hd
    exact Option.noConfusion hd
  · rw [hr] at hd
    injection hd with hd2
    rw [Prod.mk.injEq] at hd2
    obtain ⟨hst, _⟩ := hd2
    rw [← hst]
    constructor
    · simpa using le_trans (Int.natCast_nonneg st.daily_fragment_count) h.1
    · simpa using le_trans (Int.natCast_nonneg st.daily_proactive_count) h.2

/-- Every single call preserves the daily-cap invariant. -/
lemma applyOp_inv {sha : String → Nat} {op : Op} {st st' : GameState}
    (h : capsInv st) (ha : applyOp sha op st = some st') : capsInv st' := by
  cases op with
  | dayStart config =>
    simp only [applyOp] at ha
    rcases hd : day_start st config with _ | ⟨st2, msgs⟩
    · rw [hd] at ha
      exact Option.noConfusion ha
    · rw [hd] at ha
      injection ha with ha2
      rw [show ((st2, msgs).1 : GameState) = st2 from rfl] at ha2
      rw [← ha2]
      exact day_start_inv h hd
  | actionSelect content location time_slot stage_id =>
    simp only [applyOp] at ha
    injection ha with ha2
    rw [← ha2]
    exact action_select_inv h
  | chatOp text content stage_id =>
    simp only [applyOp] at ha
    injection ha with ha2
    rw [← ha2]
    exact chat_inv h
  | dayEnd config content =>
    simp only [applyOp] at ha
    injection ha with ha2
    rw [← ha2]
    exact day_end_inv h

/-- Any successful call sequence preserves the daily-cap invariant. -/
lemma runOps_inv {sha : String → Nat} :
    ∀ (ops : List Op) {st stF : GameState}, capsInv st →
      runOps sha ops st = some stF → capsInv stF := by
  intro ops
  induction ops with
  | nil =>
    intro st stF h hr
    simp only [runOps] at hr
    injection hr with h2
    rw [← h2]
    exact h
  | cons op ops ih =>
    intro st stF h hr
    simp only [runOps] at hr
    rcases ha : applyOp sha op st with _ | st1
    · rw [ha] at hr
      exact Option.noConfusion hr
    · rw [ha] at hr
      exact ih (applyOp_inv h ha) hr

/-- Reading back the key just written into a `Nat`-valued dict. -/
lemma dgetN_dsetN_self (d : List (String × Nat)) (k : String) (v dflt : Nat) :
    dgetN (dsetN d k v) k dflt = v := by
  induction d with
  | nil => simp [dsetN, dgetN]
  | cons p rest ih =>
    by_cases h : p.1 = k
    · simp [dsetN, h, dgetN]
    · simp only [dsetN, h, if_neg, not_false_iff]
      simpa [dgetN, h] using ih

/-- Reading back the key just written into an `Int`-valued dict. -/
lemma dgetI_dsetI_self (d : List (String × Int)) (k : String) (v dflt : Int) :
    dgetI (dsetI d k v) k dflt = v := by
  induction d with
  | nil => simp [dsetI, dgetI]
  | cons p rest ih =>
    by_cases h : p.1 = k
    · simp [dsetI, h, dgetI]
    · simp only [dsetI, h, if_neg, not_false_iff]
      simpa [dgetI, h] using ih

end Lemmas

/-- Claim C5: for all parameters with `0 ≤ p0 ≤ p_max ≤ 1` and `dp ≥ 0`
and every seed, `roll_with_pity` computes probability
`p = min(p_max, p0 + n·dp)` and succeeds exactly when the derived draw `r`
satisfies `r ≤ p`; the computed probability is monotonically non-decreasing
in the exposure count and never exceeds `p_max`. -/
theorem roll_with_pity_spec (sha : String → Nat) (p0 dp p_max : ℚ)
    (n seed : Nat) (h0 : 0 ≤ p0) (h1 : p0 ≤ p_max) (h2 : p_max ≤ 1)
    (h3 : 0 ≤ dp) :
    (roll_with_pity sha p0 dp p_max n seed).probability =
      min p_max (p0 + (n : ℚ) * dp) ∧
    ((roll_with_pity sha p0 dp p_max n seed).success = true ↔
      (roll_with_pity sha p0 dp p_max n seed).roll ≤
        (roll_with_pity sha p0 dp p_max n seed).probability) ∧
    (∀ n1 n2 : Nat, n1 ≤ n2 →
      (roll_with_pity sha p0 dp p_max n1 seed).probability ≤
        (roll_with_pity sha p0 dp p_max n2 seed).probability) ∧
    (roll_with_pity sha p0 dp p_max n seed).probability ≤ p_max := by
  refine ⟨rfl, ?_, ?_, ?_⟩
  · simp [roll_with_pity]
  · intro n1 n2 hle
    simp only [roll_with_pity]
    refine min_le_min le_rfl (add_le_add_left ?_ p0)
    exact mul_le_mul_of_nonneg_right (by exact_mod_cast hle) h3
  · exact min_le_left _ _

/-- Witness for C5 at `p0 = 1/5`, `dp = 3/20`, `p_max = 17/20`, `n = 2`,
`seed = 0`. -/
theorem roll_with_pity_spec_witness :
    ((0 : ℚ) ≤ 1 / 5 ∧ (1 / 5 : ℚ) ≤ 17 / 20 ∧ (17 / 20 : ℚ) ≤ 1 ∧
      (0 : ℚ) ≤ 3 / 20) ∧
    (roll_with_pity sha0 (1 / 5) (3 / 20) (17 / 20) 2 0).probability =
      min (17 / 20) (1 / 5 + (2 : ℚ) * (3 / 20)) := by
  refine ⟨by norm_num, ?_⟩
  exact (roll_with_pity_spec sha0 (1 / 5) (3 / 20) (17 / 20) 2 0 (by norm_num)
    (by norm_num) (by norm_num) (by norm_num)).1

lemma sumW_nil : sumW [] = 0 := by simp [sumW]

lemma sumW_cons (x : Event) (l : List Event) :
    sumW (x :: l) = weightOf x + sumW l := by
  simp [sumW]

/-- Characterization of the cumulative-weight loop: a returned item is the
first whose cumulative weight reaches the threshold, and a fall-through
means no cumulative weight reaches it. -/
lemma selectLoop_spec (threshold : ℚ) :
    ∀ (l : List Event) (cum : ℚ),
      (∀ e, selectLoop threshold cum l = some e →
        ∃ i, i < l.length ∧ l.get? i = some e ∧
          threshold ≤ cum + sumW (l.take (i + 1)) ∧
          ∀ j < i, cum + sumW (l.take (j + 1)) < threshold) ∧
      (selectLoop threshold cum l = none →
        ∀ j < l.length, cum + sumW (l.take (j + 1)) < threshold) := by
  intro l
  induction l with
  | nil =>
    intro cum
    constructor
    · intro e he; simp [selectLoop] at he
    · intro _ j hj; simp at hj
  | cons x xs ih =>
    intro cum
    by_cases h : cum + weightOf x ≥ threshold
    · constructor
      · intro e he
        simp only [selectLoop, if_pos h, Option.some.injEq] at he
        refine ⟨0, by simp, by simp [he], ?_, by omega⟩
        simpa [sumW_cons, sumW_nil] using h
      · intro hnone
        simp [selectLoop, if_pos h] at hnone
    · obtain ⟨ihs, ihn⟩ := ih (cum + weightOf x)
      constructor
      · intro e he
        simp only [selectLoop, if_neg h] at he
        obtain ⟨i, hi, hget, hge, hlt⟩ := ihs e he
        refine ⟨i + 1, by simpa using Nat.succ_lt_succ hi, by simpa using hget,
          ?_, ?_⟩
        · have : sumW ((x :: xs).take (i + 1 + 1)) =
              weightOf x + sumW (xs.take (i + 1)) := by
            simp [sumW_cons]
          rw [this, ← add_assoc]
          exact hge
        · intro j hj
          cases j with
          | zero =>
            simpa [sumW_cons, sumW_nil] using lt_of_not_ge h
          | succ j =>
            have : sumW ((x :: xs).take (j + 1 + 1)) =
                weightOf x + sumW (xs.take (j + 1)) := by
              simp [sumW_cons]
            rw [this, ← add_assoc]
            exact hlt j (by omega)
      · intro hnone j hj
        simp only [selectLoop, if_neg h] at hnone
        cases j with
        | zero =>
          simpa [sumW_cons, sumW_nil] using lt_of_not_ge h
        | succ j =>
          have : sumW ((x :: xs).take (j + 1 + 1)) =
              weightOf x + sumW (xs.take (j + 1)) := by
            simp [sumW_cons]
          rw [this, ← add_assoc]
          exact ihn hnone j (by simpa using Nat.lt_of_succ_lt_succ hj)

/-- Claim C8: `select_weighted` is a pure function of its `(list, seed)`
inputs: the empty list yields no selection; a non-positive total weight
yields the first item; otherwise the threshold
`(seed % 10000) / 10000 · total` lies in `[0, total)` and the first item
whose cumulative weight meets or exceeds it is returned. -/
theorem select_weighted_spec (items : List Event) (seed : Nat) :
    select_weighted [] seed = none ∧
    (∀ x xs, items = x :: xs → sumW items ≤ 0 →
      select_weighted items seed = some x) ∧
    (0 < sumW items →
      0 ≤ ((seed % 10000 : ℕ) : ℚ) / 10000 * sumW items ∧
      ((seed % 10000 : ℕ) : ℚ) / 10000 * sumW items < sumW items ∧
      ∃ i, i < items.length ∧ select_weighted items seed = items.get? i ∧
        ((seed % 10000 : ℕ) : ℚ) / 10000 * sumW items ≤
          sumW (items.take (i + 1)) ∧
        ∀ j < i, sumW (items.take (j + 1)) <
          ((seed % 10000 : ℕ) : ℚ) / 10000 * sumW items) ∧
    (∀ items2 seed2, items2 = items → seed2 = seed →
      select_weighted items2 seed2 = select_weighted items seed) := by
  have hfrac : (0 : ℚ) ≤ ((seed % 10000 : ℕ) : ℚ) / 10000 := by positivity
  have hfrac1 : ((seed % 10000 : ℕ) : ℚ) / 10000 < 1 := by
    rw [div_lt_one (by norm_num : (0 : ℚ) < 10000)]
    exact_mod_cast Nat.mod_lt seed (by norm_num)
  refine ⟨rfl, ?_, ?_, ?_⟩
  · intro x xs hx hle
    subst hx
    simp [select_weighted, if_pos hle]
  · intro hpos
    refine ⟨mul_nonneg hfrac (le_of_lt hpos), ?_, ?_⟩
    · calc ((seed % 10000 : ℕ) : ℚ) / 10000 * sumW items
          < 1 * sumW items := mul_lt_mul_of_pos_right hfrac1 hpos
        _ = sumW items := one_mul _
    · cases items with
      | nil => rw [sumW_nil] at hpos; exact absurd hpos (by norm_num)
      | cons x xs =>
        have hne : ¬ sumW (x :: xs) ≤ 0 := not_le_of_lt hpos
        obtain ⟨hs, hn⟩ := selectLoop_spec
          (((seed % 10000 : ℕ) : ℚ) / 10000 * sumW (x :: xs)) (x :: xs) 0
        cases hloop : selectLoop
            (((seed % 10000 : ℕ) : ℚ) / 10000 * sumW (x :: xs)) 0 (x :: xs) with
        | some e =>
          obtain ⟨i, hi, hget, hge, hlt⟩ := hs e hloop
          refine ⟨i, hi, ?_, by simpa using hge, fun j hj => by
            simpa using hlt j hj⟩
          simp only [select_weighted, if_neg hne, hloop]
          exact hget.symm
        | none =>
          exfalso
          have hlast := hn hloop ((x :: xs).length - 1) (by simp)
          rw [show (x :: xs).length - 1 + 1 = (x :: xs).length by simp,
            List.take_length] at hlast
          simp only [zero_add] at hlast
          exact absurd hlast (not_lt_of_ge (le_of_lt (by
            calc ((seed % 10000 : ℕ) : ℚ) / 10000 * sumW (x :: xs)
                < 1 * sumW (x :: xs) := mul_lt_mul_of_pos_right hfrac1 hpos
              _ = sumW (x :: xs) := one_mul _)))
  · intro items2 seed2 h1 h2
    rw [h1, h2]

/-- Witness for C8 on a two-event list with weights 1 and 2 and seed 5000
(threshold 3/2, which the second event's cumulative weight 3 first
reaches). -/
theorem select_weighted_spec_witness :
    0 < sumW demoEvents ∧
    ∃ i, i < demoEvents.length ∧
      select_weighted demoEvents 5000 = demoEvents.get? i ∧
      ((5000 % 10000 : ℕ) : ℚ) / 10000 * sumW demoEvents ≤
        sumW (demoEvents.take (i + 1)) ∧
      ∀ j < i, sumW (demoEvents.take (j + 1)) <
        ((5000 % 10000 : ℕ) : ℚ) / 10000 * sumW demoEvents := by
  have h : 0 < sumW demoEvents := by
    norm_num [sumW, demoEvents, wEvent1, wEvent2, weightOf]
  exact ⟨h, ((select_weighted_spec demoEvents 5000).2.2.1 h).2.2⟩

/-- Claim C7: with the `ap` resource at 0, `action_select` returns the
single warning message and the unchanged state; with `chat_turns` at 0,
`chat` returns only its warning and changes nothing. -/
theorem exhausted_resources_soft_warning (sha : String → Nat)
    (st : GameState) (content : ContentBundle)
    (location time_slot stage_id text : String) :
    (st.resources.ap = 0 →
      action_select sha st content location time_slot stage_id =
        (st, [{ role := "system", content := "体力不足，无法行动。",
                 kind := "warning" }], [])) ∧
    (st.resources.chat_turns = 0 →
      chat sha st text content stage_id =
        (st, [{ role := "system", content := "今天聊得够多了。",
                kind := "warning" }])) := by
  constructor
  · intro h
    rw [action_select, if_pos (le_of_eq h)]
  · intro h
    rw [chat, if_pos (le_of_eq h)]

/-- Witness for C7 (end-to-end scenario A): three `action_select` calls on
empty content deplete `ap` from 3 to 0; the fourth returns only the warning
and the untouched state, and `chat` on a zero-chat-turn state warns and
changes nothing. -/
theorem exhausted_resources_soft_warning_witness :
    ∃ st0 s3 : GameState,
      create_initial_state sha0 "sidA" cfgMain = some st0 ∧
      runOps sha0
        [Op.actionSelect {} "街角" "早" "event_flow",
         Op.actionSelect {} "街角" "早" "event_flow",
         Op.actionSelect {} "街角" "早" "event_flow"] st0 = some s3 ∧
      s3.resources.ap = 0 ∧
      action_select sha0 s3 {} "街角" "早" "event_flow" =
        (s3, [{ role := "system", content := "体力不足，无法行动。",
                kind := "warning" }], []) ∧
      ∀ sz : GameState, sz = { s3 with resources := { s3.resources with
                                                        chat_turns := 0 } } →
        chat sha0 sz "你好" {} "chat" =
          (sz, [{ role := "system", content := "今天聊得够多了。",
                  kind := "warning" }]) := by
  refine ⟨_, _, rfl, rfl, rfl, ?_, ?_⟩
  · exact (exhausted_resources_soft_warning sha0 _ {} "街角" "早" "event_flow"
      "你好").1 rfl
  · intro sz hz
    subst hz
    exact (exhausted_resources_soft_warning sha0 _ {} "街角" "早" "event_flow"
      "你好").2 rfl

/-- Counterexample for C2: with empty resource/cap mappings,
`create_initial_state` does not complete normally — `Resources(**{})`
raises a validation error (all four resource fields are required), so the
result is `none` rather than a state with default values. -/
theorem create_initial_state_empty_config_fails :
    create_initial_state sha0 "session" {} = none := rfl

/-- Claim C2 (amended): when the resource and cap mappings contain all
their required keys, `create_initial_state` and `day_start` complete
normally, and a missing `max_runs` key in the run mapping falls back to
the documented default 5; but missing resource or cap keys are fatal
(`Resources`/`Caps` validation), not defaulted. -/
theorem create_initial_state_defaults (sha : String → Nat) (sid : String)
    (config : ConfigBundle) (r : Resources) (c : Caps)
    (hr : Resources.ofDict config.resources = some r)
    (hc : Caps.ofDict config.caps = some c) :
    create_initial_state sha sid config =
      some { session_id := sid
             resources := r
             caps := c
             max_runs := dgetI config.run "max_runs" 5
             run_seed := stable_seed sha [sid, "run_seed"] } ∧
    (config.run.find? (fun p => p.1 = "max_runs") = none →
      dgetI config.run "max_runs" 5 = 5) ∧
    ∀ st, create_initial_state sha sid config = some st →
      day_start st config =
        some ({ st with
                resources := r
                daily_fragment_count := 0
                daily_proactive_count := 0
                current_context := {} },
              [{ role := "system"
                 content := "第" ++ toString st.day_index ++ "天开始。"
                 kind := "day_start" }]) := by
  refine ⟨?_, ?_, ?_⟩
  · rw [create_initial_state, hr, hc]
  · intro h
    rw [dgetI, h]
  · intro st _
    rw [day_start, hr]

/-- Witness for C2's amended claim at a concrete full configuration whose
run mapping has no `max_runs` key. -/
theorem create_initial_state_defaults_witness :
    (Resources.ofDict cfgMain.resources = some ⟨3, 2, 0, 1⟩ ∧
     Caps.ofDict cfgMain.caps = some ⟨1, 1⟩) ∧
    create_initial_state sha0 "sid" cfgMain =
      some { session_id := "sid"
             resources := ⟨3, 2, 0, 1⟩
             caps := ⟨1, 1⟩
             max_runs := dgetI cfgMain.run "max_runs" 5
             run_seed := stable_seed sha0 ["sid", "run_seed"] } :=
  ⟨⟨rfl, rfl⟩,
   (create_initial_state_defaults sha0 "sid" cfgMain ⟨3, 2, 0, 1⟩ ⟨1, 1⟩
     rfl rfl).1⟩

/-- Claim C9: a fragment whose consumed flag is set is never again eligible
for a trigger check — it never appears in the eligibility filter, any
single `fragment_trigger_check` call (at any location, day or stage, i.e.
from any state) leaves it untouched, and any trace entry such a call
appends records a roll on a non-consumed fragment. -/
theorem consumed_fragment_never_rechecked (sha : String → Nat)
    (st : GameState) (location stage_id : String) (i : Nat) (f : Fragment)
    (hget : st.fragments_active.get? i = some f) (hcons : f.consumed = true) :
    (∀ j, (j, f) ∉ eligibleIdx st location) ∧
    (fragment_trigger_check sha st location stage_id).1.fragments_active.get? i
      = some f ∧
    ((fragment_trigger_check sha st location stage_id).1.trace_log =
        st.trace_log ∨
      ∃ j g, (j, g) ∈ eligibleIdx st location ∧ g.consumed = false ∧
        (fragment_trigger_check sha st location stage_id).1.trace_log =
          st.trace_log ++ [rollTrace sha st stage_id g]) := by
  refine ⟨?_, ?_, ?_⟩
  · intro j hj
    have := (eligibleIdx_mem st location j f hj).2
    rw [hcons] at this
    exact Bool.noConfusion this
  · simp only [fragment_trigger_check]
    split
    · exact hget
    · split
      · exact hget
      · rename_i j g heq
        have hmem := pyMaxBy_mem ftcKey _ _ heq
        obtain ⟨hgetj, hgcons⟩ := eligibleIdx_mem st location j g hmem
        have hne : i ≠ j := by
          intro hij
          rw [hij, hgetj] at hget
          have hfg : g = f := by injection hget
          rw [← hfg, hgcons] at hcons
          exact Bool.noConfusion hcons
        split
        · exact hget
        · split
          · exact (get?_set_of_ne st.fragments_active i j _ hne).trans hget
          · exact (get?_set_of_ne st.fragments_active i j _ hne).trans hget
  · simp only [fragment_trigger_check]
    split
    · exact Or.inl rfl
    · split
      · exact Or.inl rfl
      · rename_i j g heq
        have hmem := pyMaxBy_mem ftcKey _ _ heq
        obtain ⟨_, hgcons⟩ := eligibleIdx_mem st location j g hmem
        split
        · exact Or.inl rfl
        · split
          · exact Or.inr ⟨j, g, hmem, hgcons, rfl⟩
          · exact Or.inr ⟨j, g, hmem, hgcons, rfl⟩

/-- Witness for C9 on a concrete state whose first active fragment is
consumed. -/
theorem consumed_fragment_never_rechecked_witness :
    (stFrag.fragments_active.get? 0 = some fragConsumed ∧
      fragConsumed.consumed = true) ∧
    (∀ j, (j, fragConsumed) ∉ eligibleIdx stFrag "市场") ∧
    (fragment_trigger_check sha0 stFrag "市场" "chat").1.fragments_active.get? 0
      = some fragConsumed := by
  have h := consumed_fragment_never_rechecked sha0 stFrag "市场" "chat" 0
    fragConsumed rfl rfl
  exact ⟨⟨rfl, rfl⟩, h.1, h.2.1⟩

/-- Claim C10: `fragment_trigger_check` rolls at most one fragment — the
eligible fragment maximising `salience_score + exposures·0.1` — and applies
the already-checked test only to that selected fragment after selection: if
the selected fragment was last checked at the current `(day, stage)`, the
call returns no message and leaves the state unchanged, even when other
eligible fragments remain unchecked there. -/
theorem ftc_single_selected_roll (sha : String → Nat) (st : GameState)
    (location stage_id : String) :
    (∀ j f, pyMaxBy ftcKey (eligibleIdx st location) = some (j, f) →
      ∀ p ∈ eligibleIdx st location, ftcKey p ≤ ftcKey (j, f)) ∧
    ((fragment_trigger_check sha st location stage_id).1.trace_log =
        st.trace_log ∨
      ∃ j f, pyMaxBy ftcKey (eligibleIdx st location) = some (j, f) ∧
        (fragment_trigger_check sha st location stage_id).1.trace_log =
          st.trace_log ++ [rollTrace sha st stage_id f]) ∧
    (∀ j f, pyMaxBy ftcKey (eligibleIdx st location) = some (j, f) →
      f.trigger_state.last_check_day = some st.day_index →
      f.trigger_state.last_check_stage = some stage_id →
      fragment_trigger_check sha st location stage_id = (st, none)) := by
  refine ⟨?_, ?_, ?_⟩
  · intro j f hm p hp
    exact pyMaxBy_le ftcKey _ _ hm p hp
  · simp only [fragment_trigger_check]
    split
    · exact Or.inl rfl
    · split
      · exact Or.inl rfl
      · rename_i j g heq
        split
        · exact Or.inl rfl
        · split
          · exact Or.inr ⟨j, g, heq, rfl⟩
          · exact Or.inr ⟨j, g, heq, rfl⟩
  · intro j f hm h1 h2
    simp only [fragment_trigger_check]
    split
    · rfl
    · split
      · rename_i heq
        rw [hm] at heq
      · rename_i j2 g heq
        rw [hm] at heq
        injection heq with heq2
        rw [Prod.mk.injEq] at heq2
        obtain ⟨rfl, rfl⟩ := heq2
        exact if_pos ⟨h1, h2⟩

/-- Witness for C10 on a concrete state where the selected
highest-salience fragment was already checked at the current day and stage
while a lower-salience eligible fragment was not: the whole check is
skipped. -/
theorem ftc_single_selected_roll_witness :
    (pyMaxBy ftcKey (eligibleIdx stFrag "市场") = some (1, fragChecked) ∧
      fragChecked.trigger_state.last_check_day = some stFrag.day_index ∧
      fragChecked.trigger_state.last_check_stage = some "event_flow" ∧
      (2, fragFresh) ∈ eligibleIdx stFrag "市场" ∧
      fragFresh.trigger_state.last_check_day ≠ some stFrag.day_index) ∧
    fragment_trigger_check sha0 stFrag "市场" "event_flow" = (stFrag, none) := by
  have hsel : pyMaxBy ftcKey (eligibleIdx stFrag "市场") =
      some (1, fragChecked) := by
    have hlt : ¬ ftcKey (2, fragFresh) > ftcKey (1, fragChecked) := by
      norm_num [ftcKey, fragFresh, fragChecked]
    rw [show eligibleIdx stFrag "市场" = [(1, fragChecked), (2, fragFresh)]
      from rfl]
    simp only [pyMaxBy, List.foldl, if_neg hlt]
  refine ⟨⟨hsel, rfl, rfl, List.Mem.tail _ (List.Mem.head _),
    fun h => Option.noConfusion h⟩, ?_⟩
  exact (ftc_single_selected_roll sha0 stFrag "市场" "event_flow").2.2 1
    fragChecked hsel rfl rfl

/-- Claim C3: from a fresh initial state with non-negative caps, any
sequence of `day_start`, `action_select`, `chat` and `day_end` calls keeps
`daily_fragment_count ≤ caps.daily_fragment_cap` and
`daily_proactive_count ≤ caps.daily_proactive_cap` (each prefix of a
sequence is itself a sequence, so the bound holds after every call). -/
theorem daily_counters_never_exceed_caps (sha : String → Nat) (sid : String)
    (config : ConfigBundle) (ops : List Op) (st0 stF : GameState)
    (h0 : create_initial_state sha sid config = some st0)
    (hf : 0 ≤ st0.caps.daily_fragment_cap)
    (hp : 0 ≤ st0.caps.daily_proactive_cap)
    (hrun : runOps sha ops st0 = some stF) :
    (stF.daily_fragment_count : Int) ≤ stF.caps.daily_fragment_cap ∧
    (stF.daily_proactive_count : Int) ≤ stF.caps.daily_proactive_cap := by
  have hcounts : st0.daily_fragment_count = 0 ∧
      st0.daily_proactive_count = 0 := by
    simp only [create_initial_state] at h0
    rcases hr : Resources.ofDict config.resources with _ | r
    · rw [hr] at h0
      exact Option.noConfusion h0
    · rcases hc : Caps.ofDict config.caps with _ | c
      · rw [hr, hc] at h0
        exact Option.noConfusion h0
      · rw [hr, hc] at h0
        injection h0 with h02
        rw [← h02]
        exact ⟨rfl, rfl⟩
  have hinv : capsInv st0 := by
    constructor
    · rw [hcounts.1]; simpa using hf
    · rw [hcounts.2]; simpa using hp
  exact runOps_inv ops hinv hrun

/-- Witness for C3 on a concrete four-call sequence through all entry
points. -/
theorem daily_counters_never_exceed_caps_witness :
    ∃ st0 stF : GameState,
      (create_initial_state sha0 "sidI" cfgMain = some st0 ∧
        0 ≤ st0.caps.daily_fragment_cap ∧
        0 ≤ st0.caps.daily_proactive_cap ∧
        runOps sha0 demoOps st0 = some stF) ∧
      (stF.daily_fragment_count : Int) ≤ stF.caps.daily_fragment_cap ∧
      (stF.daily_proactive_count : Int) ≤ stF.caps.daily_proactive_cap := by
  have h := daily_counters_never_exceed_caps sha0 "sidI" cfgMain demoOps _ _
    rfl (of_decide_eq_true rfl) (of_decide_eq_true rfl) rfl
  exact ⟨_, _, ⟨rfl, of_decide_eq_true rfl, of_decide_eq_true rfl, rfl⟩, h⟩

/-- On the non-final branch (`run_index < max_runs`), `run_end` restarts:
phase `RUNNING`, day 1, incremented run index, fresh run seed, cleared
event history, and only the run-end message. -/
lemma run_end_restart (sha : String → Nat) (st : GameState)
    (config : ConfigBundle) (content : ContentBundle)
    (hlt : st.run_index < st.max_runs) :
    (run_end sha st config content).1.game_phase = GamePhase.RUNNING ∧
    (run_end sha st config content).1.day_index = 1 ∧
    (run_end sha st config content).1.run_index = st.run_index + 1 ∧
    (run_end sha st config content).1.run_seed =
      stable_seed sha [st.session_id, "run_seed",
        toString (st.run_index + 1)] ∧
    (run_end sha st config content).1.event_history = [] ∧
    (run_end sha st config content).2 = [runEndMsg st.run_index] := by
  simp only [run_end]
  rcases hmx : pyMaxBy (fun f => f.salience_score) st.fragments_active
      with _ | deep <;>
  · simp only [hmx]
    split
    · rename_i hc
      exact absurd hc (not_le_of_lt hlt)
    · exact ⟨rfl, rfl, rfl, rfl, rfl, rfl⟩

/-- On the final branch (`run_index ≥ max_runs`), `run_end` finishes the
session in phase `ENDED` and emits the run-end message followed by one
message per scene of the first available ending. -/
lemma run_end_final (sha : String → Nat) (st : GameState)
    (config : ConfigBundle) (content : ContentBundle)
    (hge : st.max_runs ≤ st.run_index) :
    (run_end sha st config content).1.game_phase = GamePhase.ENDED ∧
    (run_end sha st config content).2 = runEndMsg st.run_index ::
      (endingScenes content).map (fun sc =>
        { role := "narrator", content := sc, kind := "final_ending" }) := by
  simp only [run_end]
  rcases hmx : pyMaxBy (fun f => f.salience_score) st.fragments_active
      with _ | deep <;>
  · simp only [hmx]
    split
    · refine ⟨rfl, ?_⟩
      simp only [final_ending, endingScenes]
      rcases hend : content.endings with _ | ⟨e, es⟩
      · rfl
      · rfl
    · rename_i hc
      exact absurd hge hc

/-- Claim C4: a `day_end` call that pushes `day_index` past `days_per_run`
passes through phase `RUN_END` (its tail is exactly a `run_end` call on a
`RUN_END`-phase state); then, if `run_index < max_runs`, the session
restarts in `RUNNING` with day 1, incremented run index, fresh run seed
and cleared event history, and if `run_index ≥ max_runs` it ends in
`ENDED`, emitting the run-end message followed by one `final_ending`
message per scene of the first available ending. -/
theorem run_transition (sha : String → Nat) (st : GameState)
    (config : ConfigBundle) (content : ContentBundle)
    (h : st.day_index + 1 > dgetI config.run "days_per_run" 7) :
    (∃ stMid : GameState, stMid.game_phase = GamePhase.RUN_END ∧
      day_end sha st config content =
        ((run_end sha stMid config content).1,
          fragPre st config ++ (run_end sha stMid config content).2)) ∧
    (st.run_index < st.max_runs →
      (day_end sha st config content).1.game_phase = GamePhase.RUNNING ∧
      (day_end sha st config content).1.day_index = 1 ∧
      (day_end sha st config content).1.run_index = st.run_index + 1 ∧
      (day_end sha st config content).1.run_seed =
        stable_seed sha [st.session_id, "run_seed",
          toString (st.run_index + 1)] ∧
      (day_end sha st config content).1.event_history = [] ∧
      (day_end sha st config content).2 =
        fragPre st config ++ [runEndMsg st.run_index]) ∧
    (st.max_runs ≤ st.run_index →
      (day_end sha st config content).1.game_phase = GamePhase.ENDED ∧
      (day_end sha st config content).2 =
        fragPre st config ++ runEndMsg st.run_index ::
          (endingScenes content).map (fun sc =>
            { role := "narrator", content := sc, kind := "final_ending" })) := by
  rcases hpick : pick_fragment st config with _ | frag <;>
  · have hcond : (dayEndPre st config).day_index >
        dgetI config.run "days_per_run" 7 := by
      simp only [dayEndPre, hpick]
      exact h
    have hde : day_end sha st config content =
        ((run_end sha { dayEndPre st config with
            game_phase := GamePhase.RUN_END } config content).1,
          fragPre st config ++
            (run_end sha { dayEndPre st config with
              game_phase := GamePhase.RUN_END } config content).2) := by
      simp only [day_end, hpick, fragPre]
      rw [if_pos hcond]
    refine ⟨⟨{ dayEndPre st config with game_phase := GamePhase.RUN_END },
      rfl, hde⟩, ?_, ?_⟩
    · intro hlt
      have hre := run_end_restart sha
        ({ dayEndPre st config with game_phase := GamePhase.RUN_END })
        config content (by simp only [dayEndPre, hpick]; exact hlt)
      simp only [dayEndPre, hpick] at hre
      rw [hde]
      simp only [dayEndPre, hpick]
      exact ⟨hre.1, hre.2.1, hre.2.2.1, hre.2.2.2.1, hre.2.2.2.2.1,
        by rw [hre.2.2.2.2.2]⟩
    · intro hge
      have hre := run_end_final sha
        ({ dayEndPre st config with game_phase := GamePhase.RUN_END })
        config content (by simp only [dayEndPre, hpick]; exact hge)
      simp only [dayEndPre, hpick] at hre
      rw [hde]
      simp only [dayEndPre, hpick]
      exact ⟨hre.1, by rw [hre.2]⟩

/-- Witness for C4 (end-to-end scenario C): with `days_per_run = 7`,
`max_runs = 1`, the seventh `day_end` call (after six) ends the session in
`ENDED`, emitting the run-end message followed by every scene of the first
ending. -/
theorem run_transition_witness :
    (create_initial_state sha0 "sidC" cfgOne).bind (runOps sha0 opsC) =
      some stC6 ∧
    stC6.day_index + 1 > dgetI cfgOne.run "days_per_run" 7 ∧
    stC6.max_runs ≤ stC6.run_index ∧
    fragPre stC6 cfgOne = [] ∧
    (day_end sha0 stC6 cfgOne endContent).1.game_phase = GamePhase.ENDED ∧
    (day_end sha0 stC6 cfgOne endContent).2 =
      fragPre stC6 cfgOne ++ runEndMsg stC6.run_index ::
        (endingScenes endContent).map (fun sc =>
          { role := "narrator", content := sc, kind := "final_ending" }) := by
  have h := (run_transition sha0 stC6 cfgOne endContent
    (of_decide_eq_true rfl)).2.2 (of_decide_eq_true rfl)
  exact ⟨rfl, of_decide_eq_true rfl, of_decide_eq_true rfl, rfl, h.1, h.2⟩

/-- Claim C6: a proactive-hook attempt (guards passed, a hook selected)
appends exactly one trace entry and returns no message directly; on a
successful roll the hook's exposure resets to zero, its cooldown becomes
`current_day + cooldown_days`, the initiative resource and daily proactive
counter are consumed, and the NPC message is queued on the state, flushed
by `build_response`; on a failed roll only the exposure counter
increments. -/
theorem proactive_attempt_effects (sha : String → Nat) (st : GameState)
    (content : ContentBundle) (stage_id : String) (hook : Hook)
    (h1 : (st.daily_proactive_count : Int) < st.caps.daily_proactive_cap)
    (h2 : 0 < st.resources.npc_initiative)
    (h3 : (eligibleHooks st content).isEmpty = false)
    (h4 : select_hook sha (eligibleHooks st content) st stage_id =
      some hook) :
    (proactive_check sha st content stage_id).2 = [] ∧
    (proactive_check sha st content stage_id).1.trace_log =
      st.trace_log ++ [hookTrace sha st stage_id hook] ∧
    ((hookRoll sha st stage_id hook).success = true →
      dgetN (proactive_check sha st content stage_id).1.proactive_state.hook_exposures
        (hook.hook_id.getD "hook") 0 = 0 ∧
      dgetI (proactive_check sha st content stage_id).1.proactive_state.hook_cooldowns
        (hook.hook_id.getD "hook") 0 =
          st.day_index + hook.cooldown_days.getD 1 ∧
      (proactive_check sha st content stage_id).1.resources.npc_initiative =
        st.resources.npc_initiative - 1 ∧
      (proactive_check sha st content stage_id).1.daily_proactive_count =
        st.daily_proactive_count + 1 ∧
      (proactive_check sha st content stage_id).1.pending_npc_messages =
        st.pending_npc_messages ++ [hookMessage hook] ∧
      ∀ (base : List Message) (hints : List String) (tid : String),
        (build_response (proactive_check sha st content stage_id).1 base hints
          tid).messages =
            base ++ (proactive_check sha st content stage_id).1.pending_npc_messages ∧
        (build_response (proactive_check sha st content stage_id).1 base hints
          tid).state.pending_npc_messages = []) ∧
    ((hookRoll sha st stage_id hook).success = false →
      dgetN (proactive_check sha st content stage_id).1.proactive_state.hook_exposures
        (hook.hook_id.getD "hook") 0 =
          dgetN st.proactive_state.hook_exposures (hook.hook_id.getD "hook") 0
            + 1 ∧
      (proactive_check sha st content stage_id).1.proactive_state.hook_cooldowns =
        st.proactive_state.hook_cooldowns ∧
      (proactive_check sha st content stage_id).1.resources = st.resources ∧
      (proactive_check sha st content stage_id).1.daily_proactive_count =
        st.daily_proactive_count ∧
      (proactive_check sha st content stage_id).1.pending_npc_messages =
        st.pending_npc_messages) := by
  simp only [proactive_check]
  rw [if_neg (show ¬ ((st.daily_proactive_count : Int) ≥
    st.caps.daily_proactive_cap) from not_le_of_lt h1)]
  rw [if_neg (show ¬ (st.resources.npc_initiative ≤ 0) from not_le_of_lt h2)]
  rw [if_neg (show ¬ ((eligibleHooks st content).isEmpty = true) from by
    rw [h3]; exact Bool.noConfusion)]
  simp only [h4]
  rcases hsb : (hookRoll sha st stage_id hook).success with _ | _
  · rw [if_pos rfl]
    refine ⟨rfl, rfl, ?_, ?_⟩
    · intro hs
      exact Bool.noConfusion hs
    · intro _
      exact ⟨dgetN_dsetN_self _ _ _ _, rfl, rfl, rfl, rfl⟩
  · rw [if_neg (fun hc => Bool.noConfusion hc)]
    refine ⟨rfl, rfl, ?_, ?_⟩
    · intro _
      refine ⟨dgetN_dsetN_self _ _ _ _, dgetI_dsetI_self _ _ _ _, rfl, rfl,
        rfl, ?_⟩
      intro base hints tid
      exact ⟨rfl, rfl⟩
    · intro hs
      exact Bool.noConfusion hs

/-- Witness for C6 on a fresh-like state and a catalog holding one
unconditional hook (the stand-in digest makes the roll succeed). -/
theorem proactive_attempt_effects_witness :
    ((stFrag.daily_proactive_count : Int) < stFrag.caps.daily_proactive_cap ∧
      0 < stFrag.resources.npc_initiative ∧
      (eligibleHooks stFrag hookContent).isEmpty = false ∧
      select_hook sha0 (eligibleHooks stFrag hookContent) stFrag "chat" =
        some hk1 ∧
      (hookRoll sha0 stFrag "chat" hk1).success = true) ∧
    (proactive_check sha0 stFrag hookContent "chat").2 = [] ∧
    (proactive_check sha0 stFrag hookContent "chat").1.trace_log =
      stFrag.trace_log ++ [hookTrace sha0 stFrag "chat" hk1] ∧
    dgetN (proactive_check sha0 stFrag hookContent "chat").1.proactive_state.hook_exposures
      (hk1.hook_id.getD "hook") 0 = 0 ∧
    dgetI (proactive_check sha0 stFrag hookContent "chat").1.proactive_state.hook_cooldowns
      (hk1.hook_id.getD "hook") 0 = stFrag.day_index + hk1.cooldown_days.getD 1 ∧
    (proactive_check sha0 stFrag hookContent "chat").1.resources.npc_initiative =
      stFrag.resources.npc_initiative - 1 ∧
    (proactive_check sha0 stFrag hookContent "chat").1.daily_proactive_count =
      stFrag.daily_proactive_count + 1 ∧
    (proactive_check sha0 stFrag hookContent "chat").1.pending_npc_messages =
      stFrag.pending_npc_messages ++ [hookMessage hk1] := by
  have helig : eligibleHooks stFrag hookContent = [hk1] := rfl
  have hsel : select_hook sha0 (eligibleHooks stFrag hookContent) stFrag
      "chat" = some hk1 := by
    rw [helig]
    simp only [select_hook, List.map, List.sum_cons, List.sum_nil, hookLoop]
    norm_num [dgetN, stable_seed, sha0]
  have hsucc : (hookRoll sha0 stFrag "chat" hk1).success = true := by
    simp only [hookRoll, roll_with_pity, sha0, dgetN]
    norm_num [hk1, stFrag, List.find?]
  have h := proactive_attempt_effects sha0 stFrag hookContent "chat" hk1
    (of_decide_eq_true rfl) (of_decide_eq_true rfl) rfl hsel
  obtain ⟨hm, ht, hyes, _⟩ := h
  obtain ⟨e1, e2, e3, e4, e5, _⟩ := hyes hsucc
  exact ⟨⟨of_decide_eq_true rfl, of_decide_eq_true rfl, rfl, hsel, hsucc⟩,
    hm, ht, e1, e2, e3, e4, e5⟩

/-- Claim C1 (violated by the code): `run_end` overwrites `deep_fragments`
with a singleton instead of appending to it, so the deep fragment migrated
at the first run's end is gone after the second run's end: in a reachable
two-run session, `fragment_1_1_1` is migrated into deep memory at the end
of run 1 and is absent from deep memory after the end of run 2. -/
theorem deep_memory_overwritten_at_next_run_end :
    ∃ st0 stMid stF : GameState,
      create_initial_state sha0 "sidB" cfgShort = some st0 ∧
      runOps sha0 [Op.chatOp "线索" {} "chat", Op.dayEnd cfgShort {}] st0 =
        some stMid ∧
      stMid.deep_fragments.map (fun f => f.fragment_id) = ["fragment_1_1_1"] ∧
      stMid.game_phase = GamePhase.RUNNING ∧
      runOps sha0 [Op.chatOp "线索" {} "chat", Op.dayEnd cfgShort {}] stMid =
        some stF ∧
      stF.deep_fragments.map (fun f => f.fragment_id) = ["fragment_2_1_1"] ∧
      ¬ "fragment_1_1_1" ∈ stF.deep_fragments.map (fun f => f.fragment_id) := by
  refine ⟨_, _, _, rfl, rfl, rfl, rfl, rfl, rfl, ?_⟩
  intro hmem
  have hmem2 : "fragment_1_1_1" ∈ ["fragment_2_1_1"] := hmem
  simp at hmem2

end ForgottenGirl
